import Mathlib

/-!
Verification of the natural-language specification of the distributed-training
repository against a shallow embedding of `src/template/utils/hivemind.py`.

Numeric tensors are modelled as lists of rationals (exact arithmetic standing
in for floating point); a collection of per-parameter tensors is a list of
tensors, matching the Python code's iteration over parameters.  Stateful
methods become pure functions from an explicit state to a new state; raised
exceptions become explicit error values.
-/

namespace DistributedTraining

/-- Model of a flat numeric tensor: a list of rationals. -/
abbrev Tensor := List ℚ

/-- Model of the in-place `tensor.add_(other, alpha=...)` of torch. -/
def tensorAddScaled (acc g : Tensor) (alpha : ℚ) : Tensor :=
  List.zipWith (fun a x => a + alpha * x) acc g

/-- Model of the in-place `tensor.mul_(c)` of torch. -/
def tensorScale (c : ℚ) (t : Tensor) : Tensor :=
  t.map (fun x => c * x)

/-- Elementwise sum of two tensors of equal shape. -/
def tensorAdd (a b : Tensor) : Tensor :=
  List.zipWith (fun x y => x + y) a b

/-- Elementwise difference of two tensors of equal shape. -/
def tensorSub (a b : Tensor) : Tensor :=
  List.zipWith (fun x y => x - y) a b

/-- Model of `torch.zeros_like`. -/
def zerosLike (t : Tensor) : Tensor :=
  t.map (fun _ => 0)

/-! ## DTGradientAverager: gradient accumulation (hivemind.py lines 447-628)

State of the gradient accumulator of `DTGradientAverager` in the
`reuse_grad_buffers=False` configuration (the configuration the claims are
about): `_anchor_batch_size`, `local_samples_accumulated`,
`local_times_accumulated`, `_local_accumulators` (one tensor per parameter),
and the two bookkeeping flags. -/

structure GradAccumState where
  anchorBatchSize : Option ℕ
  localSamplesAccumulated : ℕ
  localTimesAccumulated : ℕ
  localAccumulators : List Tensor
  accumulatorsUsedInStep : Bool
  newAveragedGrads : Bool
deriving DecidableEq

/-- Embedding of `DTGradientAverager.accumulate_grads_` (lines 522-543),
`reuse_grad_buffers=False` branch.  `gradBufs` are the current per-parameter
gradient buffers (`_grads_from_parameters`), `warn` is `self.warn`. -/
def accumulate_grads (warn : Bool) (s : GradAccumState) (gradBufs : List Tensor)
    (batchSize : ℕ) : GradAccumState :=
  let used := if s.accumulatorsUsedInStep && warn then false else s.accumulatorsUsedInStep
  let anchor := s.anchorBatchSize.getD batchSize
  let alpha : ℚ := (batchSize : ℚ) / (anchor : ℚ)
  { anchorBatchSize := some anchor
    localSamplesAccumulated := s.localSamplesAccumulated + batchSize
    localTimesAccumulated := s.localTimesAccumulated + 1
    localAccumulators :=
      List.zipWith (fun acc g => tensorAddScaled acc g alpha) s.localAccumulators gradBufs
    accumulatorsUsedInStep := used
    newAveragedGrads := s.newAveragedGrads }

/-- Embedding of `DTGradientAverager.load_accumulators_into_averager_`
(lines 606-619): returns the contents of the shared averaging buffer, namely
each accumulator copied and multiplied by `1/times_accumulated` (or `0` when
nothing was accumulated). -/
def load_accumulators_into_averager (s : GradAccumState) : List Tensor :=
  let gradScale : ℚ :=
    if s.localTimesAccumulated ≠ 0 then 1 / (s.localTimesAccumulated : ℚ) else 0
  s.localAccumulators.map (tensorScale gradScale)

/-- Embedding of `DTGradientAverager.reset_accumulated_grads_` (lines 621-628). -/
def reset_accumulated_grads (s : GradAccumState) : GradAccumState :=
  { anchorBatchSize := none
    localSamplesAccumulated := 0
    localTimesAccumulated := 0
    localAccumulators := s.localAccumulators.map zerosLike
    accumulatorsUsedInStep := false
    newAveragedGrads := s.newAveragedGrads }

/-! ## DTAllReduceRunner (hivemind.py lines 77-222) -/

/-- Peer identifiers, abstracted as naturals. -/
abbrev PeerId := ℕ

/-- Message codes of the averaging protocol that are relevant to
`_communicate_with_peer`: `AVERAGED_PART` versus anything else. -/
inductive MessageCode
  | averagedPart
  | otherCode
deriving DecidableEq

/-- One message of the `rpc_aggregate_part` response stream. -/
structure AveragingMessage where
  code : MessageCode
  tensorPart : Tensor
deriving DecidableEq

/-- Observable outcome of the remote branch of `_communicate_with_peer`:
the `register_processed_part` calls made (part index and delta, in order),
whether `tensor_part_container.register_failed_reducer` was called for this
peer, and whether an exception propagated to the owning round. -/
structure CommunicateOutcome where
  processedParts : List (ℕ × Tensor)
  failedReducerRegistered : Bool
  errorRaised : Bool
deriving DecidableEq

/-- The receive loop of `_communicate_with_peer` (lines 109-143): messages are
deserialized in order; a message whose code is not `AVERAGED_PART` raises
`AllreduceException`; after the stream ends, a part count different from
`num_parts_by_peer[peer_index]` raises `AllreduceException`; the enclosing
`except` block registers the peer as a failed reducer and re-raises. -/
def receiveLoop (expected : ℕ) : List AveragingMessage → ℕ → List (ℕ × Tensor) →
    CommunicateOutcome
  | [], partIndex, acc =>
    if partIndex ≠ expected then
      { processedParts := acc.reverse, failedReducerRegistered := true, errorRaised := true }
    else
      { processedParts := acc.reverse, failedReducerRegistered := false, errorRaised := false }
  | m :: rest, partIndex, acc =>
    match m.code with
    | MessageCode.averagedPart =>
      receiveLoop expected rest (partIndex + 1) ((partIndex, m.tensorPart) :: acc)
    | MessageCode.otherCode =>
      { processedParts := acc.reverse, failedReducerRegistered := true, errorRaised := true }

/-- Embedding of `DTAllReduceRunner._communicate_with_peer` (lines 82-143) for
a remote peer: `expected` is `tensor_part_container.num_parts_by_peer[peer_index]`
and `msgs` is the response stream of that peer. -/
def communicate_with_peer_remote (expected : ℕ) (msgs : List AveragingMessage) :
    CommunicateOutcome :=
  receiveLoop expected msgs 0 []

/-- State touched by `DTAllReduceRunner._ban_sender`: the group's
`sender_peer_ids`, the `banned_senders` set (as a duplicate-free list) and the
log of `tensor_part_reducer.on_sender_failed` calls (sender indices, most
recent first). -/
structure BanState where
  senderPeerIds : List PeerId
  bannedSenders : List PeerId
  reducerFailedSenders : List ℕ
deriving DecidableEq

/-- Embedding of `DTAllReduceRunner._ban_sender` (lines 212-222): under
`banlock`, if the peer is not yet banned it is added to `banned_senders`, the
reducer is told that this sender index failed, and an exception is raised
(the returned Bool); an already banned peer leaves the state unchanged. -/
def ban_sender (s : BanState) (p : PeerId) : BanState × Bool :=
  if p ∈ s.bannedSenders then (s, false)
  else
    ({ s with
        bannedSenders := p :: s.bannedSenders
        reducerFailedSenders := s.senderPeerIds.indexOf p :: s.reducerFailedSenders },
      true)

/-- A sequence of chunk-transport failure events for one round, each handled
by `_ban_sender`. -/
def processFailures (s : BanState) (events : List PeerId) : BanState :=
  events.foldl (fun st p => (ban_sender st p).1) s

/-- Status of one all-reduce round after a set of bans. -/
inductive RoundStatus
  | running
  | failed
deriving DecidableEq

/-- Modelled from the spec: the round-continuation rule of AllReduceRound
(section 4.4 of the spec; the round lifecycle itself lives in the imported
hivemind library, outside src/).  After banning, the round keeps running as
long as at least one non-banned sender other than self remains; otherwise it
transitions to failed. -/
def roundStatusAfterBans (senders : List PeerId) (selfId : PeerId)
    (banned : List PeerId) : RoundStatus :=
  if (senders.filter (fun p => decide (p ∉ banned) && decide (p ≠ selfId))).length = 0 then
    RoundStatus.failed
  else
    RoundStatus.running

/-! ## DTAverager._aggregate_with_group (hivemind.py lines 383-444) -/

/-- The averaging modes of hivemind (`AveragingMode`): full node, client, or
auxiliary.  The spec's client-only peer that never receives averaged results
is `aux`. -/
inductive AvgMode
  | node
  | client
  | aux
deriving DecidableEq

/-- Embedding of the tensor-application part of `DTAverager._aggregate_with_group`
(lines 425-438): a peer whose own mode is not `AUX` applies every update
produced by the runner in place (`tensor.add_(update, alpha=_averaging_alpha)`),
while an `AUX` peer raises `ValueError` as soon as the runner yields any
averaged output. -/
def aggregate_apply (selfMode : AvgMode) (localTensors : List Tensor)
    (updates : List Tensor) (alpha : ℚ) : Except String (List Tensor) :=
  if selfMode ≠ AvgMode.aux then
    Except.ok (List.zipWith (fun t u => tensorAddScaled t u alpha) localTensors updates)
  else
    match updates with
    | [] => Except.ok localTensors
    | _ :: _ => Except.error "aux peers should not receive averaged tensors"

/-! ## DTAverager._step_custom (hivemind.py lines 287-381)

The `StepControl` handle is modelled by its terminal result cell.  `setResult`
and `setException` model `MPFuture.set_result` / `set_exception`, which fail
on an already-resolved future: such a call records a contract violation in
`doubleSet`.  `externalCancel` models a cancellation of the future arriving
from the user process, which resolves it (legally) when still pending. -/

/-- The exception kinds distinguished by `_step_custom`. -/
inductive ExnKind
  | allreduceExn
  | matchmakingExn
  | assertionFailed
  | stopAsyncIteration
  | cancelledErr
  | invalidState
  | p2pHandlerErr
  | p2pDaemonErr
  | fatal
  | sanityRuntimeError
deriving DecidableEq

/-- Terminal outcome of one averaging step. -/
inductive StepOutcome
  | value (v : ℕ)
  | exnResult (e : ExnKind)
  | cancelledRes
deriving DecidableEq

/-- The result cell of a `StepControl` handle. -/
structure StepControlState where
  result : Option StepOutcome
  doubleSet : Bool
deriving DecidableEq

/-- Model of `step.done()`. -/
def stepDone (s : StepControlState) : Bool :=
  s.result.isSome

/-- Model of `step.set_result`: resolving an already-resolved future is a
contract violation. -/
def setResultCtl (s : StepControlState) (r : StepOutcome) : StepControlState :=
  if s.result.isSome then { s with doubleSet := true } else { s with result := some r }

/-- Model of `step.set_exception`: resolving an already-resolved future is a
contract violation. -/
def setExceptionCtl (s : StepControlState) (e : ExnKind) : StepControlState :=
  if s.result.isSome then { s with doubleSet := true }
  else { s with result := some (StepOutcome.exnResult e) }

/-- Model of an external `step.cancel()` arriving: cancelling a pending future
resolves it as cancelled; cancelling a resolved future is a no-op. -/
def externalCancel (s : StepControlState) : StepControlState :=
  if s.result.isSome then s else { s with result := some StepOutcome.cancelledRes }

/-- What the environment makes one iteration of the `while not step.done()`
loop of `_step_custom` do: the step was cancelled while matchmaking, no group
was found, all-reduce succeeded with a value, one of the exception types
listed in the `except` clause was raised, or an unlisted `BaseException`
escaped to the outer handler. -/
inductive IterEvent
  | cancelObserved
  | noGroup
  | successEv (v : ℕ)
  | listedExn (e : ExnKind)
  | fatalExn
deriving DecidableEq

/-- Embedding of the `except (AllreduceException, ..., P2PDaemonError)` handler
of `_step_custom` (lines 345-367): when the step is done, retries are not
allowed, or the deadline passed, the exception becomes the terminal result
(unless the step is already done); otherwise the loop retries. -/
def handleListedExn (allowRetries : Bool) (deadlineReached : Bool)
    (st : StepControlState) (e : ExnKind) : StepControlState :=
  if stepDone st || !allowRetries || deadlineReached then
    if !(stepDone st) then setExceptionCtl st e else st
  else
    st

/-- The `while not step.done()` loop of `_step_custom` (lines 306-367), driven
by a finite trace of iteration events; each event is paired with whether
`get_dht_time() >= step.deadline` held when the handler ran.  Returns the
control state and whether an unlisted `BaseException` escaped the loop. -/
def stepLoop (allowRetries : Bool) : List (IterEvent × Bool) → StepControlState →
    StepControlState × Bool
  | [], st => (st, false)
  | (ev, dl) :: rest, st =>
    if stepDone st then (st, false)
    else
      match ev with
      | IterEvent.successEv v => stepLoop allowRetries rest (setResultCtl st (StepOutcome.value v))
      | IterEvent.cancelObserved =>
        stepLoop allowRetries rest
          (handleListedExn allowRetries dl (externalCancel st) ExnKind.cancelledErr)
      | IterEvent.noGroup =>
        stepLoop allowRetries rest (handleListedExn allowRetries dl st ExnKind.allreduceExn)
      | IterEvent.listedExn e =>
        stepLoop allowRetries rest (handleListedExn allowRetries dl st e)
      | IterEvent.fatalExn => (st, true)

/-- Embedding of `DTAverager._step_custom` (lines 287-381): the loop, the
outer `except BaseException` handler (set the exception when the step is still
pending, then re-raise), and the `finally` block (if the step is somehow still
pending, resolve it with the internal sanity-check `RuntimeError`). -/
def step_custom (allowRetries : Bool) (events : List (IterEvent × Bool)) :
    StepControlState :=
  let st0 : StepControlState := { result := none, doubleSet := false }
  let p := stepLoop allowRetries events st0
  let st1 := if p.2 && !(stepDone p.1) then setExceptionCtl p.1 ExnKind.fatal else p.1
  if !(stepDone st1) then setExceptionCtl st1 ExnKind.sanityRuntimeError else st1

/-! ## DTGradientAverager.schedule_step / step (hivemind.py lines 545-604) -/

/-- The parts of a `StepControl` handle that `DTGradientAverager.step`
reads or writes. -/
structure StepControlHandle where
  triggered : Bool
  weight : Option ℚ
  allreduceAllowed : Bool
deriving DecidableEq

/-- Errors raised by `DTGradientAverager.step` before doing any work. -/
inductive GradStepError
  | runtimeError
  | assertionError
deriving DecidableEq

/-- Handle returned by `schedule_step` (lines 545-562): matchmaking begins with
`wait=False, require_trigger=True`, so the returned control is not yet
triggered. -/
def schedule_step_control : StepControlHandle :=
  { triggered := false, weight := none, allreduceAllowed := false }

/-- Observable outcome of `DTGradientAverager.step`. -/
structure GradStepOutcome where
  error : Option GradStepError
  state : GradAccumState
  averagedBuffer : List Tensor
  control : StepControlHandle
deriving DecidableEq

/-- Embedding of `DTGradientAverager.step` (lines 564-604): with a
pre-scheduled control and any extra keyword arguments, raise `RuntimeError`;
an already-triggered control fails the `assert not control.triggered`; only
then are the accumulators loaded into the shared buffer, the bookkeeping
flags set, the control's weight set (`local_samples_accumulated` by default),
the accumulators optionally reset, and all-reduce allowed. -/
def grad_step (s : GradAccumState) (buf : List Tensor)
    (control : Option StepControlHandle) (numExtraKwargs : ℕ)
    (weight : Option ℚ) (resetAccumulators : Bool) : GradStepOutcome :=
  let checked : Except GradStepError StepControlHandle :=
    match control with
    | none => Except.ok schedule_step_control
    | some c =>
      if 0 < numExtraKwargs then Except.error GradStepError.runtimeError else Except.ok c
  match checked with
  | Except.error e =>
    { error := some e, state := s, averagedBuffer := buf,
      control := control.getD schedule_step_control }
  | Except.ok c =>
    if c.triggered then
      { error := some GradStepError.assertionError, state := s, averagedBuffer := buf,
        control := c }
    else
      let buf1 := load_accumulators_into_averager s
      let s1 := { s with accumulatorsUsedInStep := true, newAveragedGrads := true }
      let w : ℚ :=
        match weight with
        | none => (s.localSamplesAccumulated : ℚ)
        | some w0 => w0
      let s2 := if resetAccumulators then reset_accumulated_grads s1 else s1
      { error := none, state := s2, averagedBuffer := buf1,
        control := { c with weight := some w, allreduceAllowed := true } }

/-! ## DTStateAverager (hivemind.py lines 679-869) -/

/-- The local trainer state touched by `load_final_state_from_peers`:
`self.local_epoch`, the main parameters plus extra tensors, and the optimizer
statistics tensors. -/
structure PeerTrainerState where
  localEpoch : ℤ
  mainParametersAndExtras : List Tensor
  optimizerTensors : List Tensor
deriving DecidableEq

/-- Embedding of `DTStateAverager.load_final_state_from_peers` (lines 810-869).
`loadedState` is what `load_state_from_peers_with_latest_state` returned:
`none`, or the metadata epoch field (`none` when missing or not an `int`)
together with the flat tensor list.  `optLoadOk` abstracts whether
`load_optimizer_state` succeeds (its `StopIteration` failure is raised before
any parameter is copied).  Returns the reported success flag and the new
state. -/
def load_final_state_from_peers (s : PeerTrainerState)
    (loadedState : Option (Option ℤ × List Tensor)) (optLoadOk : Bool) :
    Bool × PeerTrainerState :=
  match loadedState with
  | none => (false, s)
  | some (epochField, flatTensors) =>
    match epochField with
    | none => (false, s)
    | some e =>
      if e < s.localEpoch then (false, s)
      else
        let n := s.mainParametersAndExtras.length
        let loadedParams := flatTensors.take n
        let loadedOpt := flatTensors.drop n
        if n ≠ loadedParams.length then (false, s)
        else if !optLoadOk then (false, s)
        else
          (true,
            { localEpoch := e
              mainParametersAndExtras := loadedParams
              optimizerTensors := loadedOpt })

/-- Embedding of the per-message timeout computation of
`DTStateAverager._load_state_from_peers_with_latest_state` (lines 702-711):
only when the caller supplied a timeout is it replaced by
`next_chunk_timeout` (falling back to `request_timeout`); the result is the
`timeout` handed to `aiter_with_timeout` for every message of the
`rpc_download_state` stream (`none` means no per-message bound). -/
def effective_chunk_timeout (timeout nextChunkTimeout : Option ℚ)
    (requestTimeout : ℚ) : Option ℚ :=
  match timeout with
  | none => none
  | some _ => some (nextChunkTimeout.getD requestTimeout)

/-- Model of awaiting one stream message under `aiter_with_timeout`: the
message (arriving after `delay` seconds) is delivered iff no bound is set or
the delay is within the bound; `true` means the await does not time out. -/
def awaitDelivers (bound : Option ℚ) (delay : ℚ) : Bool :=
  match bound with
  | none => true
  | some b => decide (delay ≤ b)

/-! ## load_state_from_peer (hivemind.py lines 889-935) -/

/-- Which path `load_state_from_peer` obtained the state from. -/
inductive LoadSource
  | hubRegistry
  | p2pPeers
deriving DecidableEq

/-- Observable outcome of `load_state_from_peer`. -/
structure LoadStateOutcome where
  source : Option LoadSource
  loadedState : Bool
  localEpochAfter : ℤ
  pushed : Bool
  createdTag : Option ℤ
  crashed : Bool
deriving DecidableEq

/-- Embedding of the module-level `load_state_from_peer` (lines 889-935).
`tags1` and `tags2` are the tag names (parsed as integers, in listed order) of
the two `list_repo_refs` calls; the checkpoint-registry path is taken when the
last listed tag is at least `global_progress.epoch`; otherwise
`load_final_state_from_peers` is attempted, abstracted by `p2pOk` (its
exceptions are swallowed into a failed load).  After a successful load the
local epoch becomes the global epoch; the unguarded `refs.tags[-1]` on the log
line makes an empty second tag list an `IndexError` (`crashed`); otherwise a
push and a new tag equal to the local epoch happen exactly when the last
listed tag is smaller than it. -/
def load_state_from_peer (tags1 tags2 : List ℤ) (globalEpoch localEpoch0 : ℤ)
    (p2pOk : Bool) : LoadStateOutcome :=
  let hubHit : Bool :=
    match tags1.getLast? with
    | some t => decide (globalEpoch ≤ t)
    | none => false
  let source : Option LoadSource :=
    if hubHit then some LoadSource.hubRegistry
    else if p2pOk then some LoadSource.p2pPeers
    else none
  let loaded := hubHit || p2pOk
  if loaded then
    match tags2.getLast? with
    | none =>
      { source := source, loadedState := true, localEpochAfter := globalEpoch,
        pushed := false, createdTag := none, crashed := true }
    | some t2 =>
      if t2 < globalEpoch then
        { source := source, loadedState := true, localEpochAfter := globalEpoch,
          pushed := true, createdTag := some globalEpoch, crashed := false }
      else
        { source := source, loadedState := true, localEpochAfter := globalEpoch,
          pushed := false, createdTag := none, crashed := false }
  else
    { source := none, loadedState := false, localEpochAfter := localEpoch0,
      pushed := false, createdTag := none, crashed := false }

/-! ## Theorems -/

/-- Claim C1, counterexample: the claim says a downloaded state whose metadata
epoch equals the local epoch (5 versus local 5) is refused with `False` and an
unchanged state; in the code the guard is `metadata["epoch"] < self.local_epoch`,
so an equal epoch is accepted, the parameters are overwritten and the call
returns `True`. -/
theorem c1_counterexample :
    (load_final_state_from_peers ⟨5, [[1]], [[0]]⟩ (some (some 5, [[2], [9]])) true).1
      = true ∧
    (load_final_state_from_peers ⟨5, [[1]], [[0]]⟩ (some (some 5, [[2], [9]])) true).2
      ≠ ⟨5, [[1]], [[0]]⟩ := by
  decide

/-- Claim C1, amended: `load_final_state_from_peers` refuses a downloaded state
exactly when its metadata epoch is strictly less than the local epoch (or the
epoch field is missing or not an integer): a strictly smaller epoch leaves
model/optimizer state and the local epoch unchanged and returns `False`, while
an epoch greater than or equal to the local epoch passes the guard and, when
the tensor counts and optimizer statistics are consistent, is applied and
returns `True`. -/
theorem c1_amended_epoch_guard (s : PeerTrainerState) (e : ℤ) (flat : List Tensor)
    (ok : Bool) (hlt : e < s.localEpoch) (e2 : ℤ) (flat2 : List Tensor)
    (hge : s.localEpoch ≤ e2)
    (hlen : s.mainParametersAndExtras.length ≤ flat2.length) :
    load_final_state_from_peers s (some (some e, flat)) ok = (false, s) ∧
    load_final_state_from_peers s (some (some e2, flat2)) true =
      (true,
        { localEpoch := e2
          mainParametersAndExtras := flat2.take s.mainParametersAndExtras.length
          optimizerTensors := flat2.drop s.mainParametersAndExtras.length }) := by
  constructor
  · simp [load_final_state_from_peers, hlt]
  · have h1 : ¬ e2 < s.localEpoch := by omega
    have h2 : (flat2.take s.mainParametersAndExtras.length).length
        = s.mainParametersAndExtras.length := by
      rw [List.length_take]
      omega
    simp [load_final_state_from_peers, h1, h2]

/-- Claim C1, witness for the amended theorem at local epoch 5: downloaded
epoch 3 is refused with an unchanged state, downloaded epoch 5 is applied. -/
theorem c1_amended_witness :
    load_final_state_from_peers ⟨5, [[1]], [[0]]⟩ (some (some 3, [[7]])) true
      = (false, ⟨5, [[1]], [[0]]⟩) ∧
    load_final_state_from_peers ⟨5, [[1]], [[0]]⟩ (some (some 5, [[2], [9]])) true
      = (true, ⟨5, [[2]], [[9]]⟩) := by
  have h := c1_amended_epoch_guard ⟨5, [[1]], [[0]]⟩ 3 [[7]] true (by decide)
    5 [[2], [9]] (by decide) (by decide)
  exact ⟨h.1, h.2⟩

/-- Claim C9, counterexample: the claim says every message of the
`rpc_download_state` stream is awaited under a finite per-message timeout
regardless of whether the caller supplied an explicit timeout; in the code the
replacement `timeout = next_chunk_timeout or request_timeout` happens only
when the caller-supplied timeout is not `None`, so with a `None` timeout the
per-message bound handed to `aiter_with_timeout` is `None` and even an
arbitrarily late message (here one billion seconds) is still awaited. -/
theorem c9_counterexample :
    effective_chunk_timeout none (some 30) 3 = none ∧
    awaitDelivers (effective_chunk_timeout none (some 30) 3) 1000000000 = true := by
  decide

/-- Claim C9, amended: when the caller supplies an explicit timeout, every
message of the download stream is awaited under the finite per-message bound
`next_chunk_timeout` (falling back to `request_timeout`), and a message
arriving later than that bound times out; when the caller supplies no
timeout, the per-message bound is absent. -/
theorem c9_amended_chunk_timeout (t : ℚ) (next : Option ℚ) (req : ℚ) :
    effective_chunk_timeout (some t) next req = some (next.getD req) ∧
    effective_chunk_timeout none next req = none ∧
    (∀ d : ℚ, next.getD req < d →
      awaitDelivers (effective_chunk_timeout (some t) next req) d = false) := by
  refine ⟨rfl, rfl, ?_⟩
  intro d hd
  simp only [effective_chunk_timeout, awaitDelivers, decide_eq_false_iff_not]
  exact not_le.mpr hd

/-- Claim C9, witness for the amended theorem: with caller timeout 1,
`next_chunk_timeout` 2 and `request_timeout` 3, the per-message bound is 2 and
a message arriving after 10 seconds times out. -/
theorem c9_amended_witness :
    effective_chunk_timeout (some 1) (some 2) 3 = some 2 ∧
    awaitDelivers (effective_chunk_timeout (some 1) (some 2) 3) 10 = false := by
  have h := c9_amended_chunk_timeout 1 (some 2) 3
  exact ⟨h.1, h.2.2 10 (by decide)⟩

/-- Claim C10: calling `DTGradientAverager.step` with a pre-scheduled control
handle together with any extra keyword arguments raises `RuntimeError` before
the accumulators or the shared averaging buffer are touched, and a control
handle whose trigger has already fired fails the
`assert not control.triggered` (again before any mutation), so each handle is
usable in at most one step. -/
theorem c10_prescheduled_control_guard (s : GradAccumState) (buf : List Tensor)
    (c : StepControlHandle) (k : ℕ) (w : Option ℚ) (r : Bool) (hk : 0 < k) :
    grad_step s buf (some c) k w r =
      { error := some GradStepError.runtimeError, state := s, averagedBuffer := buf,
        control := c } ∧
    (∀ c2 : StepControlHandle, c2.triggered = true →
      grad_step s buf (some c2) 0 w r =
        { error := some GradStepError.assertionError, state := s, averagedBuffer := buf,
          control := c2 }) := by
  constructor
  · simp [grad_step, hk]
  · intro c2 h2
    simp [grad_step, h2]

/-- Claim C10, witness: one extra keyword argument with a pre-scheduled
control yields `RuntimeError`, and an already-triggered control yields the
assertion failure; state and buffer are unchanged in both cases. -/
theorem c10_witness :
    grad_step ⟨some 2, 10, 3, [[5]], false, false⟩ [[9]]
        (some ⟨false, none, false⟩) 1 none true =
      { error := some GradStepError.runtimeError,
        state := ⟨some 2, 10, 3, [[5]], false, false⟩,
        averagedBuffer := [[9]], control := ⟨false, none, false⟩ } ∧
    grad_step ⟨some 2, 10, 3, [[5]], false, false⟩ [[9]]
        (some ⟨true, none, false⟩) 0 none true =
      { error := some GradStepError.assertionError,
        state := ⟨some 2, 10, 3, [[5]], false, false⟩,
        averagedBuffer := [[9]], control := ⟨true, none, false⟩ } := by
  have h := c10_prescheduled_control_guard ⟨some 2, 10, 3, [[5]], false, false⟩ [[9]]
    ⟨false, none, false⟩ 1 none true (by decide)
  exact ⟨h.1, h.2 ⟨true, none, false⟩ rfl⟩

/-- Claim C2, counterexample: accumulating with batch sizes 8, 8, 16 from a
reset state (gradient 1 at every call, one scalar parameter) puts
`g1 + g2 + 2*g3 = 4` in the accumulator and `times_accumulated = 3`, so
`load_accumulators_into_averager_` fills the shared buffer with `4 * (1/3) =
4/3`, not the `(g1 + g2 + 2*g3) / 4 = 1` the claim requires. -/
theorem c2_counterexample :
    load_accumulators_into_averager
        (accumulate_grads true (accumulate_grads true (accumulate_grads true
          ⟨none, 0, 0, [[0]], false, false⟩ [[1]] 8) [[1]] 8) [[1]] 16)
      = [[(4 : ℚ)/3]] ∧
    ((4 : ℚ)/3) ≠ ((1 : ℚ) + 1 + 2 * 1)/4 := by
  refine ⟨?_, by norm_num⟩
  simp only [accumulate_grads, load_accumulators_into_averager, Option.getD_none,
    Option.getD_some, List.zipWith_cons_cons, List.zipWith_nil_right, List.map_cons,
    List.map_nil, tensorAddScaled, tensorScale]
  norm_num

/-- Helper for C2: three rescaled additions into a zeroed accumulator with
weights 1, 1, 2 equal the combination `g1 + g2 + 2*g3`. -/
theorem threeAccumChain (g1 g2 g3 : Tensor) (h12 : g2.length = g1.length)
    (h13 : g3.length = g1.length) :
    tensorAddScaled (tensorAddScaled (tensorAddScaled (zerosLike g1) g1 1) g2 1) g3 2
      = tensorAdd (tensorAdd g1 g2) (tensorScale 2 g3) := by
  induction g1 generalizing g2 g3 with
  | nil =>
    cases g2 with
    | nil =>
      cases g3 with
      | nil => rfl
      | cons c t3 => exact absurd h13 (by simp)
    | cons b t2 => exact absurd h12 (by simp)
  | cons a t ih =>
    cases g2 with
    | nil => exact absurd h12 (by simp)
    | cons b t2 =>
      cases g3 with
      | nil => exact absurd h13 (by simp)
      | cons c t3 =>
        have h12x : t2.length = t.length := by simpa using h12
        have h13x : t3.length = t.length := by simpa using h13
        simp only [zerosLike, tensorAddScaled, tensorAdd, tensorScale, List.map_cons,
          List.zipWith_cons_cons, List.cons.injEq]
        constructor
        · ring
        · exact ih t2 t3 h12x h13x

/-- Claim C2, amended: accumulate with batch sizes [8, 8, 16] at anchor 8
yields weights [1.0, 1.0, 2.0], and after loading the accumulators into the
averager the shared buffer equals `(g1 + g2 + 2*g3) / 3` — the accumulator sum
scaled by `1/times_accumulated`, which here is 1/3, not 1/4. -/
theorem c2_amended_round_trip (g1 g2 g3 : Tensor) (h12 : g2.length = g1.length)
    (h13 : g3.length = g1.length) :
    load_accumulators_into_averager
        (accumulate_grads true (accumulate_grads true (accumulate_grads true
          ⟨none, 0, 0, [zerosLike g1], false, false⟩ [g1] 8) [g2] 8) [g3] 16)
      = [tensorScale (1/3) (tensorAdd (tensorAdd g1 g2) (tensorScale 2 g3))] := by
  have e1 : ((8 : ℕ) : ℚ) / (((8 : ℕ) : ℚ)) = 1 := by norm_num
  have e3 : ((16 : ℕ) : ℚ) / (((8 : ℕ) : ℚ)) = 2 := by norm_num
  have key := threeAccumChain g1 g2 g3 h12 h13
  simp only [accumulate_grads, load_accumulators_into_averager, Option.getD_none,
    Option.getD_some, List.zipWith_cons_cons, List.zipWith_nil_right, List.map_cons,
    List.map_nil, e1, e3]
  norm_num
  rw [key]

/-- Claim C2, witness for the amended theorem with g1 = g2 = g3 = [1]:
the shared buffer holds `(1 + 1 + 2*1)/3 = 4/3`. -/
theorem c2_amended_witness :
    load_accumulators_into_averager
        (accumulate_grads true (accumulate_grads true (accumulate_grads true
          ⟨none, 0, 0, [zerosLike [1]], false, false⟩ [[1]] 8) [[1]] 8) [[1]] 16)
      = [tensorScale (1/3) (tensorAdd (tensorAdd [1] [1]) (tensorScale 2 [1]))] :=
  c2_amended_round_trip [1] [1] [1] rfl rfl

/-- Helper for C4: characterization of the receive loop of
`_communicate_with_peer` from an arbitrary resume point. -/
theorem receiveLoop_spec (expected : ℕ) :
    ∀ (msgs : List AveragingMessage) (idx : ℕ) (acc : List (ℕ × Tensor)),
      ((receiveLoop expected msgs idx acc).failedReducerRegistered
        = (receiveLoop expected msgs idx acc).errorRaised) ∧
      ((receiveLoop expected msgs idx acc).errorRaised = true ↔
        (∃ m ∈ msgs, m.code ≠ MessageCode.averagedPart) ∨ idx + msgs.length ≠ expected) := by
  intro msgs
  induction msgs with
  | nil =>
    intro idx acc
    by_cases h : idx = expected
    · simp [receiveLoop, h]
    · simp [receiveLoop, h]
  | cons m rest ih =>
    intro idx acc
    obtain ⟨code, part⟩ := m
    cases code with
    | averagedPart =>
      have h := ih (idx + 1) ((idx, part) :: acc)
      simp only [receiveLoop]
      refine ⟨h.1, ?_⟩
      rw [h.2]
      constructor
      · rintro (⟨m2, hm2, hbad⟩ | hlen)
        · exact Or.inl ⟨m2, List.mem_cons_of_mem _ hm2, hbad⟩
        · right
          simp only [List.length_cons]
          omega
      · rintro (⟨m2, hm2, hbad⟩ | hlen)
        · rcases List.mem_cons.mp hm2 with rfl | hm2x
          · exact absurd rfl hbad
          · exact Or.inl ⟨m2, hm2x, hbad⟩
        · right
          simp only [List.length_cons] at hlen
          omega
    | otherCode =>
      simp only [receiveLoop]
      constructor
      · trivial
      · simp only [true_iff]
        exact Or.inl ⟨⟨MessageCode.otherCode, part⟩, List.mem_cons_self _ _, by simp⟩

/-- Claim C4: in the remote branch of `DTAllReduceRunner._communicate_with_peer`,
an exception propagates to the owning round exactly when some stream message
has a code other than `AVERAGED_PART` or the number of received parts differs
from the promised `num_parts_by_peer`, and on every such error the peer is
registered as a failed reducer — errors are never silently swallowed. -/
theorem c4_transport_contract (expected : ℕ) (msgs : List AveragingMessage) :
    ((communicate_with_peer_remote expected msgs).failedReducerRegistered
      = (communicate_with_peer_remote expected msgs).errorRaised) ∧
    ((communicate_with_peer_remote expected msgs).errorRaised = true ↔
      (∃ m ∈ msgs, m.code ≠ MessageCode.averagedPart) ∨ msgs.length ≠ expected) := by
  have h := receiveLoop_spec expected msgs 0 []
  simpa [communicate_with_peer_remote] using h

/-- Helper for C5: applying the deltas `avg - t` in place with unit step
recovers `avg` exactly. -/
theorem addScaled_sub_self (t a : Tensor) (h : a.length = t.length) :
    tensorAddScaled t (tensorSub a t) 1 = a := by
  induction t generalizing a with
  | nil =>
    cases a with
    | nil => rfl
    | cons y ys => exact absurd h (by simp)
  | cons x xs ih =>
    cases a with
    | nil => exact absurd h (by simp)
    | cons y ys =>
      have hx : ys.length = xs.length := by simpa using h
      simp only [tensorAddScaled, tensorSub, List.zipWith_cons_cons, List.cons.injEq]
      exact ⟨by ring, ih ys hx⟩

/-- Claim C5: in `DTAverager._aggregate_with_group`, a peer whose own mode is
not auxiliary applies the runner's deltas in place and ends up with exactly
the averaged tensors, while an auxiliary (client-only in the spec's sense)
peer raises the protocol error `ValueError` as soon as any averaged output is
delivered to it, so averaged tensors are never applied to its buffers. -/
theorem c5_aux_never_receives (mode : AvgMode) (tensors avg : List Tensor)
    (u : Tensor) (us : List Tensor) (alpha : ℚ)
    (hlen : List.Forall₂ (fun x y => x.length = y.length) avg tensors)
    (hmode : mode ≠ AvgMode.aux) :
    aggregate_apply mode tensors (List.zipWith tensorSub avg tensors) 1
      = Except.ok avg ∧
    aggregate_apply AvgMode.aux tensors (u :: us) alpha
      = Except.error "aux peers should not receive averaged tensors" := by
  constructor
  · simp only [aggregate_apply, if_pos hmode]
    congr 1
    induction hlen with
    | nil => rfl
    | cons hxy hrest ih =>
      simp only [List.zipWith_cons_cons]
      rw [addScaled_sub_self _ _ hxy, ih]
  · simp [aggregate_apply]

/-- Claim C5, witness: a full-mode peer with local tensors `[[1, 2]]` and
averaged result `[[3, 4]]` ends with `[[3, 4]]` applied in place, while an
auxiliary peer receiving any output gets the protocol error. -/
theorem c5_witness :
    aggregate_apply AvgMode.node [[1, 2]] (List.zipWith tensorSub [[3, 4]] [[1, 2]]) 1
      = Except.ok [[3, 4]] ∧
    aggregate_apply AvgMode.aux [[1, 2]] [[5]] 0
      = Except.error "aux peers should not receive averaged tensors" := by
  have h := c5_aux_never_receives AvgMode.node [[1, 2]] [[(3 : ℚ), 4]] [(5 : ℚ)] [] 0
    (List.Forall₂.cons rfl List.Forall₂.nil) (by decide)
  exact ⟨h.1, h.2⟩

/-- Helper for C6: once the anchor batch size is set, any further sequence of
accumulate calls keeps it, adds every batch size to `local_samples_accumulated`
and one per call to `local_times_accumulated`. -/
theorem accumulate_fold_anchor (warn : Bool) (rest : List (List Tensor × ℕ)) :
    ∀ (st : GradAccumState) (a : ℕ), st.anchorBatchSize = some a →
      (rest.foldl (fun s2 p => accumulate_grads warn s2 p.1 p.2) st).anchorBatchSize
          = some a ∧
      (rest.foldl (fun s2 p => accumulate_grads warn s2 p.1 p.2) st).localSamplesAccumulated
          = st.localSamplesAccumulated + (rest.map Prod.snd).sum ∧
      (rest.foldl (fun s2 p => accumulate_grads warn s2 p.1 p.2) st).localTimesAccumulated
          = st.localTimesAccumulated + rest.length := by
  induction rest with
  | nil =>
    intro st a h
    simpa using h
  | cons p ps ih =>
    intro st a h
    have h1 : (accumulate_grads warn st p.1 p.2).anchorBatchSize = some a := by
      simp [accumulate_grads, h]
    have h2 := ih (accumulate_grads warn st p.1 p.2) a h1
    simp only [List.foldl_cons]
    refine ⟨h2.1, ?_, ?_⟩
    · rw [h2.2.1]
      simp only [accumulate_grads, List.map_cons, List.sum_cons]
      omega
    · rw [h2.2.2]
      simp only [accumulate_grads, List.length_cons]
      omega

/-- Claim C6: with `reuse_grad_buffers` disabled, each `accumulate_grads_`
call adds the current gradients into the accumulators scaled by
`batch_size / anchor_batch_size`, increments `samples_accumulated` by the
batch size and `times_accumulated` by one; and starting from a reset state the
anchor stays fixed at the first call's batch size for the whole sequence. -/
theorem c6_accumulate_contract :
    (∀ (warn : Bool) (s : GradAccumState) (g : List Tensor) (b a : ℕ),
      s.anchorBatchSize = some a →
      accumulate_grads warn s g b =
        { anchorBatchSize := some a
          localSamplesAccumulated := s.localSamplesAccumulated + b
          localTimesAccumulated := s.localTimesAccumulated + 1
          localAccumulators :=
            List.zipWith (fun acc gi => tensorAddScaled acc gi ((b : ℚ) / (a : ℚ)))
              s.localAccumulators g
          accumulatorsUsedInStep :=
            if s.accumulatorsUsedInStep && warn then false else s.accumulatorsUsedInStep
          newAveragedGrads := s.newAveragedGrads }) ∧
    (∀ (warn : Bool) (s : GradAccumState) (g0 : List Tensor) (b0 : ℕ)
        (rest : List (List Tensor × ℕ)),
      (rest.foldl (fun s2 p => accumulate_grads warn s2 p.1 p.2)
          (accumulate_grads warn (reset_accumulated_grads s) g0 b0)).anchorBatchSize
        = some b0 ∧
      (rest.foldl (fun s2 p => accumulate_grads warn s2 p.1 p.2)
          (accumulate_grads warn (reset_accumulated_grads s) g0 b0)).localSamplesAccumulated
        = b0 + (rest.map Prod.snd).sum ∧
      (rest.foldl (fun s2 p => accumulate_grads warn s2 p.1 p.2)
          (accumulate_grads warn (reset_accumulated_grads s) g0 b0)).localTimesAccumulated
        = 1 + rest.length) := by
  constructor
  · intro warn s g b a h
    simp [accumulate_grads, h]
  · intro warn s g0 b0 rest
    have h1 : (accumulate_grads warn (reset_accumulated_grads s) g0 b0).anchorBatchSize
        = some b0 := by
      simp [accumulate_grads, reset_accumulated_grads]
    have h := accumulate_fold_anchor warn rest
      (accumulate_grads warn (reset_accumulated_grads s) g0 b0) b0 h1
    refine ⟨h.1, ?_, ?_⟩
    · rw [h.2.1]
      simp [accumulate_grads, reset_accumulated_grads]
    · rw [h.2.2]
      simp [accumulate_grads, reset_accumulated_grads]

/-- Claim C6, witness: one call at anchor 2 with batch 4 scales by 2, adds 4
samples, and counts one accumulation. -/
theorem c6_witness :
    accumulate_grads true ⟨some 2, 10, 3, [[5]], false, false⟩ [[1]] 4 =
      { anchorBatchSize := some 2
        localSamplesAccumulated := 10 + 4
        localTimesAccumulated := 3 + 1
        localAccumulators :=
          List.zipWith (fun acc gi => tensorAddScaled acc gi (((4 : ℕ) : ℚ) / ((2 : ℕ) : ℚ)))
            [[5]] [[1]]
        accumulatorsUsedInStep := if false && true then false else false
        newAveragedGrads := false } :=
  c6_accumulate_contract.1 true ⟨some 2, 10, 3, [[5]], false, false⟩ [[1]] 4 2 rfl

/-- Helper for C7: resolving a pending handle sets its result and preserves
the no-double-set flag. -/
theorem setExceptionCtl_pending (st : StepControlState) (e : ExnKind)
    (hs : st.result.isSome = false) :
    (setExceptionCtl st e).result.isSome = true ∧
    (setExceptionCtl st e).doubleSet = st.doubleSet := by
  simp [setExceptionCtl, hs]

/-- Helper for C7: the retry handler never resolves an already-resolved step,
so it cannot record a contract violation. -/
theorem handleListedExn_noDoubleSet (ar dl : Bool) (st : StepControlState) (e : ExnKind)
    (h : st.doubleSet = false) : (handleListedExn ar dl st e).doubleSet = false := by
  unfold handleListedExn
  by_cases hd : st.result.isSome
  · simp [stepDone, hd, h]
  · have hs2 : st.result.isSome = false := by simpa using hd
    cases ar <;> cases dl <;> simp [stepDone, hs2, setExceptionCtl, h]

/-- Helper for C7: external cancellation never resolves twice. -/
theorem externalCancel_doubleSet (st : StepControlState) :
    (externalCancel st).doubleSet = st.doubleSet := by
  unfold externalCancel
  by_cases hs : st.result.isSome <;> simp [hs]

/-- Helper for C7: no iteration of the step loop ever resolves the step
control twice. -/
theorem stepLoop_noDoubleSet (ar : Bool) (events : List (IterEvent × Bool)) :
    ∀ (st : StepControlState), st.doubleSet = false →
      ((stepLoop ar events st).1).doubleSet = false := by
  induction events with
  | nil => intro st h; exact h
  | cons e rest ih =>
    obtain ⟨ev, dl⟩ := e
    intro st h
    by_cases hd : stepDone st
    · simp [stepLoop, hd, h]
    · have hs2 : st.result.isSome = false := by simpa [stepDone] using hd
      cases ev with
      | successEv v =>
        simp only [stepLoop, hd, Bool.false_eq_true, if_false]
        apply ih
        simp [setResultCtl, hs2, h]
      | cancelObserved =>
        simp only [stepLoop, hd, Bool.false_eq_true, if_false]
        apply ih
        apply handleListedExn_noDoubleSet
        rw [externalCancel_doubleSet]
        exact h
      | noGroup =>
        simp only [stepLoop, hd, Bool.false_eq_true, if_false]
        exact ih _ (handleListedExn_noDoubleSet ar dl st ExnKind.allreduceExn h)
      | listedExn e2 =>
        simp only [stepLoop, hd, Bool.false_eq_true, if_false]
        exact ih _ (handleListedExn_noDoubleSet ar dl st e2 h)
      | fatalExn =>
        simp [stepLoop, hd, h]

/-- Helper for C7: the outer `except BaseException` handler resolves only a
pending handle, so it never double-sets. -/
theorem fatalWrap_noDoubleSet (st : StepControlState) (b : Bool)
    (h : st.doubleSet = false) :
    (if b && !(stepDone st) then setExceptionCtl st ExnKind.fatal else st).doubleSet
      = false := by
  by_cases hd : st.result.isSome
  · simp [stepDone, hd, h]
  · have hs : st.result.isSome = false := by simpa using hd
    cases b <;> simp [stepDone, hs, setExceptionCtl, h]

/-- Helper for C7: the `finally` backstop leaves the handle resolved and
never double-sets. -/
theorem backstop_resolves (st : StepControlState) (h : st.doubleSet = false) :
    (if !(stepDone st) then setExceptionCtl st ExnKind.sanityRuntimeError else st).result.isSome
      = true ∧
    (if !(stepDone st) then setExceptionCtl st ExnKind.sanityRuntimeError else st).doubleSet
      = false := by
  by_cases hd : st.result.isSome
  · simp [stepDone, hd, h]
  · have hs : st.result.isSome = false := by simpa using hd
    simp [stepDone, hs, setExceptionCtl, h]

/-- Claim C7: `_step_custom` resolves the `StepControl` handle's terminal
result on every exit path — the loop, the outer exception handler and the
`finally` backstop together guarantee the result cell is set when the
coroutine ends — and no path ever sets a result on an already-resolved
handle, for every trace of iteration events and retry policy. -/
theorem c7_terminal_result_exactly_once (ar : Bool) (events : List (IterEvent × Bool)) :
    (step_custom ar events).result.isSome = true ∧
    (step_custom ar events).doubleSet = false := by
  have h0 : ((stepLoop ar events ⟨none, false⟩).1).doubleSet = false :=
    stepLoop_noDoubleSet ar events ⟨none, false⟩ rfl
  have h1 := fatalWrap_noDoubleSet (stepLoop ar events ⟨none, false⟩).1
    (stepLoop ar events ⟨none, false⟩).2 h0
  exact backstop_resolves _ h1

/-- Helper for C3: invariants of processing a sequence of failure events
through `_ban_sender`: the sender list is unchanged, the banned set grows by
exactly the event peers, the reducer-failure log mirrors the banned list
(one `on_sender_failed` per banned peer), and the banned list stays
duplicate-free. -/
theorem processFailures_invariants (events : List PeerId) :
    ∀ (st : BanState),
      (processFailures st events).senderPeerIds = st.senderPeerIds ∧
      (∀ q, q ∈ (processFailures st events).bannedSenders ↔
        q ∈ st.bannedSenders ∨ q ∈ events) ∧
      (st.reducerFailedSenders = st.bannedSenders.map st.senderPeerIds.indexOf →
        (processFailures st events).reducerFailedSenders =
          (processFailures st events).bannedSenders.map st.senderPeerIds.indexOf) ∧
      (st.bannedSenders.Nodup → (processFailures st events).bannedSenders.Nodup) := by
  induction events with
  | nil =>
    intro st
    simp [processFailures]
  | cons p ps ih =>
    intro st
    by_cases hmem : p ∈ st.bannedSenders
    · have hban : (ban_sender st p).1 = st := by
        simp [ban_sender, hmem]
      have h := ih (ban_sender st p).1
      rw [hban] at h
      have hunf : processFailures st (p :: ps) = processFailures st ps := by
        simp only [processFailures, List.foldl_cons, hban]
      rw [hunf]
      refine ⟨h.1, ?_, h.2.2.1, h.2.2.2⟩
      intro q
      rw [(h.2.1 q)]
      constructor
      · rintro (hq | hq)
        · exact Or.inl hq
        · exact Or.inr (List.mem_cons_of_mem _ hq)
      · rintro (hq | hq)
        · exact Or.inl hq
        · rcases List.mem_cons.mp hq with rfl | hq2
          · exact Or.inl hmem
          · exact Or.inr hq2
    · have hban : (ban_sender st p).1 =
          { st with
              bannedSenders := p :: st.bannedSenders
              reducerFailedSenders :=
                st.senderPeerIds.indexOf p :: st.reducerFailedSenders } := by
        simp [ban_sender, hmem]
      have h := ih (ban_sender st p).1
      rw [hban] at h
      have hunf : processFailures st (p :: ps) =
          processFailures
            { st with
                bannedSenders := p :: st.bannedSenders
                reducerFailedSenders :=
                  st.senderPeerIds.indexOf p :: st.reducerFailedSenders } ps := by
        simp only [processFailures, List.foldl_cons, hban]
      rw [hunf]
      refine ⟨h.1, ?_, ?_, ?_⟩
      · intro q
        rw [(h.2.1 q)]
        show (q ∈ p :: st.bannedSenders ∨ q ∈ ps) ↔ (q ∈ st.bannedSenders ∨ q ∈ p :: ps)
        simp only [List.mem_cons]
        tauto
      · intro hlog
        apply h.2.2.1
        show st.senderPeerIds.indexOf p :: st.reducerFailedSenders
            = (p :: st.bannedSenders).map st.senderPeerIds.indexOf
        simp only [List.map_cons]
        rw [hlog]
      · intro hnd
        apply h.2.2.2
        exact List.nodup_cons.mpr ⟨hmem, hnd⟩

/-- Claim C3: processing any sequence of chunk-transport failures through
`_ban_sender` bans each failed peer at most once (the banned list is
duplicate-free and holds exactly the failed peers), notifies the tensor-part
reducer of that sender's failure exactly once per banned peer, and — under
the spec-modelled continuation rule — the round transitions to failed
precisely when no non-banned sender other than self remains, continuing with
the remaining peers otherwise. -/
theorem c3_ban_protocol (senders : List PeerId) (selfId : PeerId)
    (events : List PeerId) (hev : ∀ p ∈ events, p ∈ senders) :
    ((processFailures ⟨senders, [], []⟩ events).bannedSenders.Nodup) ∧
    (∀ p, p ∈ (processFailures ⟨senders, [], []⟩ events).bannedSenders ↔ p ∈ events) ∧
    (∀ p ∈ (processFailures ⟨senders, [], []⟩ events).bannedSenders,
      ((processFailures ⟨senders, [], []⟩ events).reducerFailedSenders.count
        (senders.indexOf p)) = 1) ∧
    (roundStatusAfterBans senders selfId
        (processFailures ⟨senders, [], []⟩ events).bannedSenders = RoundStatus.failed ↔
      ∀ p ∈ senders, p ≠ selfId →
        p ∈ (processFailures ⟨senders, [], []⟩ events).bannedSenders) := by
  have h := processFailures_invariants events ⟨senders, [], []⟩
  have hmem : ∀ q, q ∈ (processFailures ⟨senders, [], []⟩ events).bannedSenders ↔
      q ∈ events := by
    intro q
    rw [h.2.1 q]
    simp
  have hlog : (processFailures ⟨senders, [], []⟩ events).reducerFailedSenders =
      (processFailures ⟨senders, [], []⟩ events).bannedSenders.map senders.indexOf :=
    h.2.2.1 rfl
  have hbnd : (processFailures ⟨senders, [], []⟩ events).bannedSenders.Nodup :=
    h.2.2.2 List.nodup_nil
  have hsub : ∀ q ∈ (processFailures ⟨senders, [], []⟩ events).bannedSenders,
      q ∈ senders := by
    intro q hq
    exact hev q ((hmem q).mp hq)
  refine ⟨hbnd, hmem, ?_, ?_⟩
  · intro p hp
    rw [hlog]
    have hmapnd : ((processFailures ⟨senders, [], []⟩ events).bannedSenders.map
        senders.indexOf).Nodup := by
      apply List.Nodup.map_on ?_ hbnd
      intro x hx y hy hxy
      exact (List.indexOf_inj (hsub x hx) (hsub y hy)).mp hxy
    exact List.count_eq_one_of_mem hmapnd (List.mem_map_of_mem _ hp)
  · have hiff : (senders.filter (fun p =>
        decide (p ∉ (processFailures ⟨senders, [], []⟩ events).bannedSenders)
          && decide (p ≠ selfId))).length = 0 ↔
        ∀ p ∈ senders, p ≠ selfId →
          p ∈ (processFailures ⟨senders, [], []⟩ events).bannedSenders := by
      rw [List.length_eq_zero, List.filter_eq_nil_iff]
      constructor
      · intro hall p hp hps
        have h2 := hall p hp
        simp only [Bool.and_eq_true, decide_eq_true_eq, not_and] at h2
        by_contra hpb
        exact (h2 hpb) hps
      · intro hall p hp
        simp only [Bool.and_eq_true, decide_eq_true_eq, not_and]
        intro hpb hps
        exact hpb (hall p hp hps)
    unfold roundStatusAfterBans
    constructor
    · intro hfail
      by_cases hc : (senders.filter (fun p =>
          decide (p ∉ (processFailures ⟨senders, [], []⟩ events).bannedSenders)
            && decide (p ≠ selfId))).length = 0
      · exact hiff.mp hc
      · rw [if_neg hc] at hfail
        exact absurd hfail (by simp)
    · intro hall
      rw [if_pos (hiff.mpr hall)]

/-- Claim C3, witness: in a group with senders 1, 2, 3 and self 1, failure
events 2, 3, 2 ban peers 2 and 3 once each, notify the reducer once per
banned sender, and leave the round failed exactly because no sender besides
self remains. -/
theorem c3_witness :
    ((processFailures ⟨[1, 2, 3], [], []⟩ [2, 3, 2]).bannedSenders.Nodup) ∧
    (∀ p, p ∈ (processFailures ⟨[1, 2, 3], [], []⟩ [2, 3, 2]).bannedSenders ↔
      p ∈ [2, 3, 2]) ∧
    (∀ p ∈ (processFailures ⟨[1, 2, 3], [], []⟩ [2, 3, 2]).bannedSenders,
      ((processFailures ⟨[1, 2, 3], [], []⟩ [2, 3, 2]).reducerFailedSenders.count
        (([1, 2, 3] : List PeerId).indexOf p)) = 1) ∧
    (roundStatusAfterBans [1, 2, 3] 1
        (processFailures ⟨[1, 2, 3], [], []⟩ [2, 3, 2]).bannedSenders
        = RoundStatus.failed ↔
      ∀ p ∈ ([1, 2, 3] : List PeerId), p ≠ 1 →
        p ∈ (processFailures ⟨[1, 2, 3], [], []⟩ [2, 3, 2]).bannedSenders) :=
  c3_ban_protocol [1, 2, 3] 1 [2, 3, 2] (by decide)

/-- Claim C8, counterexample: the claim says the registry path is taken
whenever the registry holds some tag whose epoch is at least the target
global epoch; the code inspects only the last listed tag
(`refs.tags[-1]`), so with listed tags `[7, 3]` and target epoch 5 the
registry holds tag 7 ≥ 5 and yet the peer-to-peer path is taken. -/
theorem c8_counterexample :
    ((7 : ℤ) ∈ [(7 : ℤ), 3] ∧ (5 : ℤ) ≤ 7) ∧
    (load_state_from_peer [7, 3] [7, 3] 5 4 true).source ≠ some LoadSource.hubRegistry ∧
    (load_state_from_peer [7, 3] [7, 3] 5 4 true).source = some LoadSource.p2pPeers := by
  decide

/-- Claim C8, amended: when the *newest-listed* tag of the checkpoint
registry, read as an epoch, is at least the target global epoch, the state is
fetched from the registry instead of the peer-to-peer path; and after any
successful load (either path), with the local epoch now equal to the global
epoch, the model is pushed and a new tag equal to the local epoch is created
exactly when the local epoch exceeds the newest-listed tag. -/
theorem c8_amended_registry_path (tags1 tags2 : List ℤ) (gE lE0 : ℤ)
    (p2pOk : Bool) (t t2 : ℤ) (h1 : tags1.getLast? = some t)
    (h2 : tags2.getLast? = some t2) :
    (gE ≤ t →
      (load_state_from_peer tags1 tags2 gE lE0 p2pOk).source = some LoadSource.hubRegistry ∧
      (load_state_from_peer tags1 tags2 gE lE0 p2pOk).loadedState = true) ∧
    ((load_state_from_peer tags1 tags2 gE lE0 p2pOk).loadedState = true →
      ((load_state_from_peer tags1 tags2 gE lE0 p2pOk).localEpochAfter = gE ∧
       (((load_state_from_peer tags1 tags2 gE lE0 p2pOk).pushed = true ∧
         (load_state_from_peer tags1 tags2 gE lE0 p2pOk).createdTag = some gE) ↔
        t2 < gE))) := by
  unfold load_state_from_peer
  rw [h1, h2]
  by_cases hge : gE ≤ t
  · have hd : decide (gE ≤ t) = true := by simp [hge]
    simp only [hd, if_true, Bool.true_or]
    by_cases ht2 : t2 < gE
    · simp [ht2]
    · simp [ht2]
  · have hd : decide (gE ≤ t) = false := by simp [hge]
    simp only [hd, if_false, Bool.false_or]
    cases p2pOk with
    | false =>
      simp
      omega
    | true =>
      by_cases ht2 : t2 < gE
      · simp [ht2, hge]
      · simp [ht2, hge]

/-- Claim C8, witness: newest tag 7, target epoch 5 — the registry path is
taken; with local epoch 5 after the load and newest tag 7, no push happens,
matching the amended condition. -/
theorem c8_amended_witness :
    (load_state_from_peer [3, 7] [3, 7] 5 4 false).source = some LoadSource.hubRegistry ∧
    (load_state_from_peer [3, 7] [3, 7] 5 4 false).loadedState = true := by
  have h := c8_amended_registry_path [3, 7] [3, 7] 5 4 false 7 7 rfl rfl
  exact h.1 (by decide)

end DistributedTraining
